import Mathlib

/- Verification of the OUH AI inference pipeline daemons (watchdog scheduler,
   return service delivery worker, process supervisor) against their
   natural-language specification.  The Python sources are shallowly embedded:
   Python strings are modelled as lists of characters, directories as records
   of name, contained file names and modification time, and the effectful
   operations (rename, delete, copy, DICOM association) as explicit outcome
   parameters threaded through pure transition functions. -/

namespace OUH

/-- Python strings are sequences of characters; modelled as List Char so that
length, slicing and comparison coincide with Python semantics. -/
abbrev PyStr := List Char

/-- Bridge from Lean string literals to the character-list model. -/
def strL (s : String) : PyStr := s.data

/-- Python str.lower restricted to the ASCII range used by the sources. -/
def pyLower (s : PyStr) : PyStr := s.map Char.toLower

/-- Python s.startswith(pre). -/
def pyStartswith (s pre : PyStr) : Bool := pre.isPrefixOf s

/-- Python s.endswith(suf). -/
def pyEndswith (s suf : PyStr) : Bool := suf.isSuffixOf s

/-- Characters stripped by Python str.strip with no argument. -/
def pyIsSpace (c : Char) : Bool :=
  c = ' ' || c = '\t' || c = '\n' || c = '\r' || c = '\x0b' || c = '\x0c'

/-- Python str.strip with no argument: drop whitespace at both ends. -/
def pyStrip (s : PyStr) : PyStr :=
  ((s.dropWhile pyIsSpace).reverse.dropWhile pyIsSpace).reverse

/-- Python s.split(sep) for a one-character separator: parts between every
occurrence of the separator, empty parts kept, always at least one part. -/
def pySplitChar (sep : Char) : PyStr → List PyStr
  | [] => [[]]
  | c :: cs =>
    if c = sep then [] :: pySplitChar sep cs
    else
      match pySplitChar sep cs with
      | [] => [[c]]
      | p :: ps => (c :: p) :: ps

/-- Worker for pyReplace: structural recursion on a fuel that bounds the
remaining length, so that the definition evaluates by kernel reduction.  A
matched occurrence consumes the whole pattern, any other character is kept;
the fuel drops by one per step, which suffices because every step shortens
the text by at least one character. -/
def pyReplaceGo (pat repl : PyStr) : Nat → PyStr → PyStr
  | 0, s => s
  | fuel + 1, s =>
    match s with
    | [] => []
    | c :: cs =>
      if pat.isPrefixOf s && !pat.isEmpty then
        repl ++ pyReplaceGo pat repl fuel (s.drop pat.length)
      else c :: pyReplaceGo pat repl fuel cs

/-- Python s.replace(pat, repl) for a non-empty pattern: replaces every
non-overlapping occurrence, scanning left to right. -/
def pyReplace (s pat repl : PyStr) : PyStr := pyReplaceGo pat repl s.length s

/-- Whether pat occurs as a contiguous substring of s (Python in-operator). -/
def pyContains (s pat : PyStr) : Bool :=
  match s with
  | [] => pat.isEmpty
  | _ :: cs => pat.isPrefixOf s || pyContains cs pat

/-- Digit run of a Python int literal body: digits optionally separated by
single underscores (no leading, trailing or doubled underscore). -/
def pyDigits : PyStr → Option Nat
  | [] => none
  | c :: cs =>
    if c.isDigit then pyDigitsGo (c.toNat - '0'.toNat) cs else none
where
  pyDigitsGo (acc : Nat) : PyStr → Option Nat
    | [] => some acc
    | '_' :: d :: rest =>
      if d.isDigit then pyDigitsGo (10 * acc + (d.toNat - '0'.toNat)) rest
      else none
    | '_' :: [] => none
    | d :: rest =>
      if d.isDigit then pyDigitsGo (10 * acc + (d.toNat - '0'.toNat)) rest
      else none

/-- Python int(string): strips whitespace, optional sign, decimal digits;
returns none exactly when Python raises ValueError. -/
def pyInt : PyStr → Option Int := fun s =>
  match pyStrip s with
  | '+' :: rest => (pyDigits rest).map Int.ofNat
  | '-' :: rest => (pyDigits rest).map fun n => -(Int.ofNat n)
  | t => (pyDigits t).map Int.ofNat

/-- Python string less-than: lexicographic by code point, a proper prefix is
smaller than any extension of it. -/
def pyStrLt : PyStr → PyStr → Bool
  | [], [] => false
  | [], _ :: _ => true
  | _ :: _, [] => false
  | a :: as, b :: bs =>
    if a < b then true
    else if a = b then pyStrLt as bs
    else false

end OUH

/- ================ Watchdog scheduler (ouh_ai_watchdog/main.py) ============ -/

namespace OUH.Watchdog

open OUH

/-- States of an AI job directory, mirroring the AiDirState enumeration. -/
inductive AiDirState where
  | active
  | ready
  | error
  | receiving
  | handled
  | inferred
  | unknown
deriving DecidableEq, Repr

/-- One immediate subdirectory of the shared scan directory as the watchdog
sees it: its basename, the names of the files inside it, and its filesystem
modification time in whole seconds. -/
structure ScanDir where
  name : PyStr
  files : List PyStr
  mtime : Nat
deriving DecidableEq, Repr

/-- Whether the error marker file exists inside the directory; the watchdog
probes the fixed name error.txt (AiDir.error_file_path). -/
def errorFileExists (d : ScanDir) : Bool :=
  d.files.contains (strL (r"error.txt"))

/-- AiDir.state as assigned by AiDir.post-init: the error marker forces the
error state, otherwise the lowercased basename is matched against the known
prefixes in the order the source checks them, and unmatched names are
unknown. -/
def aiDirState (d : ScanDir) : AiDirState :=
  if errorFileExists d then AiDirState.error
  else if pyStartswith (pyLower d.name) (strL (r"active_")) then AiDirState.active
  else if pyStartswith (pyLower d.name) (strL (r"ready_")) then AiDirState.ready
  else if pyStartswith (pyLower d.name) (strL (r"error_")) then AiDirState.error
  else if pyStartswith (pyLower d.name) (strL (r"receiving_")) then AiDirState.receiving
  else if pyStartswith (pyLower d.name) (strL (r"handled_")) then AiDirState.handled
  else if pyStartswith (pyLower d.name) (strL (r"inferred_")) then AiDirState.inferred
  else AiDirState.unknown

/-- Classification rule as worded by the specification, for refinement
comparison with aiDirState: error-marker existence overrides everything,
then the prefixes listed in the claim in the claim order (ready, active,
error, receiving, handled, inferred) matched case-insensitively, any other
name classifying as unknown. -/
def classificationSpec (name : PyStr) (markerExists : Bool) : AiDirState :=
  if markerExists then AiDirState.error
  else if pyStartswith (pyLower name) (strL (r"ready_")) then AiDirState.ready
  else if pyStartswith (pyLower name) (strL (r"active_")) then AiDirState.active
  else if pyStartswith (pyLower name) (strL (r"error_")) then AiDirState.error
  else if pyStartswith (pyLower name) (strL (r"receiving_")) then AiDirState.receiving
  else if pyStartswith (pyLower name) (strL (r"handled_")) then AiDirState.handled
  else if pyStartswith (pyLower name) (strL (r"inferred_")) then AiDirState.inferred
  else AiDirState.unknown

end OUH.Watchdog

namespace OUH.Watchdog

open OUH

/-- Result of AiDir.load for a directory that passed pre-validation: either
the loaded nicelevel (with the directory still valid and dispatchable), or an
uncaught exception escaping load.  The only uncaught path is the IndexError
raised by line.split on a nicelevel line that contains no double quote: the
surrounding try catches ValueError alone. -/
inductive LoadResult where
  | ok (nicelevel : Int)
  | raised
deriving DecidableEq, Repr

/-- The scan over the aiconfig lines inside AiDir.load.  For each line whose
stripped, lowercased text starts with nicelevel, Python evaluates
int(line.split(quote)[1]): a line with no quote raises IndexError (modelled
as Except.error, uncaught), a non-integer quoted value raises ValueError
(caught, ending the scan with the previously assigned value), and an integer
value is assigned and the scan continues. -/
def nicelevelScan : List PyStr → Option Int → Except Unit (Option Int)
  | [], acc => Except.ok acc
  | line :: rest, acc =>
    if pyStartswith (pyLower (pyStrip line)) (strL (r"nicelevel")) then
      match (pySplitChar '"' line).drop 1 with
      | [] => Except.error ()
      | seg :: _ =>
        match pyInt seg with
        | some n => nicelevelScan rest (some n)
        | none => Except.ok acc
    else nicelevelScan rest acc

/-- AiDir.load reduced to its nicelevel outcome: after the scan, a missing
nicelevel defaults to 10 and the directory stays valid; an uncaught
IndexError escapes load. -/
def aiDirLoadNicelevel (lines : List PyStr) : LoadResult :=
  match nicelevelScan lines none with
  | Except.error _ => LoadResult.raised
  | Except.ok none => LoadResult.ok 10
  | Except.ok (some n) => LoadResult.ok n

/-- Fate of the watchdog worker polling loop when AiDir.load finishes with
the given result during a poll cycle: an exception escaping load propagates
through load_ready and the cycle body to the one surrounding
except-Exception handler in watchdog_worker, which logs and falls off the
end of the function, terminating the polling loop (the supervisor then
restarts the worker process). -/
inductive WorkerFate where
  | loopContinues
  | loopTerminated
deriving DecidableEq, Repr

/-- Effect of a load result on the watchdog worker loop. -/
def workerFate (r : LoadResult) : WorkerFate :=
  match r with
  | LoadResult.ok _ => WorkerFate.loopContinues
  | LoadResult.raised => WorkerFate.loopTerminated

/-- Gregorian leap year. -/
def isLeap (y : Nat) : Bool := (y % 4 = 0 && y % 100 != 0) || y % 400 = 0

/-- Days in a Gregorian year. -/
def daysInYear (y : Nat) : Nat := if isLeap y then 366 else 365

/-- Worker for resolveYear: structural recursion on a fuel that bounds the
number of whole years contained in the day count. -/
def resolveYearGo : Nat → Nat → Nat → Nat × Nat
  | 0, y, d => (y, d)
  | fuel + 1, y, d =>
    if d < daysInYear y then (y, d)
    else resolveYearGo fuel (y + 1) (d - daysInYear y)

/-- Resolve a day count since 1970-01-01 to a year and day-of-year; the fuel
of one step per remaining day always suffices since a step consumes at least
365 days. -/
def resolveYear (y d : Nat) : Nat × Nat := resolveYearGo (d + 1) y d

/-- Month lengths of a Gregorian year. -/
def monthLengths (y : Nat) : List Nat :=
  [31, if isLeap y then 29 else 28, 31, 30, 31, 30, 31, 31, 30, 31, 30, 31]

/-- Resolve a day-of-year to a month index (0 based) and day-of-month (0
based), walking the month lengths. -/
def resolveMonth : List Nat → Nat → Nat → Nat × Nat
  | [], m, d => (m, d)
  | len :: rest, m, d =>
    if d < len then (m, d) else resolveMonth rest (m + 1) (d - len)

/-- Decimal digits of a natural number. -/
def natChars (n : Nat) : PyStr := Nat.toDigits 10 n

/-- Two-digit zero-padded field. -/
def pad2Zero (n : Nat) : PyStr :=
  if n < 10 then '0' :: natChars n else natChars n

/-- Two-character space-padded day-of-month field, as in the C asctime
format used by Python time.ctime. -/
def pad2Space (n : Nat) : PyStr :=
  if n < 10 then ' ' :: natChars n else natChars n

/-- Weekday names indexed with 0 as Sunday; 1970-01-01 was a Thursday. -/
def weekdayName (w : Nat) : PyStr :=
  match w with
  | 0 => strL (r"Sun")
  | 1 => strL (r"Mon")
  | 2 => strL (r"Tue")
  | 3 => strL (r"Wed")
  | 4 => strL (r"Thu")
  | 5 => strL (r"Fri")
  | _ => strL (r"Sat")

/-- Month names indexed from 0. -/
def monthName (m : Nat) : PyStr :=
  match m with
  | 0 => strL (r"Jan")
  | 1 => strL (r"Feb")
  | 2 => strL (r"Mar")
  | 3 => strL (r"Apr")
  | 4 => strL (r"May")
  | 5 => strL (r"Jun")
  | 6 => strL (r"Jul")
  | 7 => strL (r"Aug")
  | 8 => strL (r"Sep")
  | 9 => strL (r"Oct")
  | 10 => strL (r"Nov")
  | _ => strL (r"Dec")

/-- Python time.ctime at a fixed zero UTC offset: the text written into
AiDir.last_modified for an epoch timestamp in seconds, in the asctime
layout of weekday, month, space-padded day, zero-padded clock and year. -/
def pyCtime (epoch : Nat) : PyStr :=
  let days := epoch / 86400
  let secs := epoch % 86400
  let wd := (days + 4) % 7
  let yd := resolveYear 1970 days
  let md := resolveMonth (monthLengths yd.1) 0 yd.2
  weekdayName wd ++ [' '] ++ monthName md.1 ++ [' '] ++ pad2Space (md.2 + 1)
    ++ [' '] ++ pad2Zero (secs / 3600) ++ [':'] ++ pad2Zero (secs % 3600 / 60)
    ++ [':'] ++ pad2Zero (secs % 60) ++ [' '] ++ natChars yd.1

/-- A ready directory that survived load_ready validation: its loaded
nicelevel and its modification time (the source of last_modified). -/
structure LoadedJob where
  name : PyStr
  nicelevel : Int
  mtime : Nat
deriving DecidableEq, Repr

/-- The sort key used by load_ready: the pair of nicelevel and the
last_modified field, which AiDir.load sets to the ctime text of the
modification time, not to the numeric timestamp. -/
def readyKey (j : LoadedJob) : Int × PyStr := (j.nicelevel, pyCtime j.mtime)

/-- Python comparison of the sort keys: lexicographic on the pair, with the
string component compared as Python compares strings. -/
def keyLt (a b : Int × PyStr) : Bool :=
  if a.1 < b.1 then true
  else if a.1 = b.1 then pyStrLt a.2 b.2
  else false

/-- Strict comparison between loaded jobs by their sort key. -/
def jobLt (a b : LoadedJob) : Bool := keyLt (readyKey a) (readyKey b)

/-- Head of the stable sort in load_ready: sorted(jobs, key)[0] is the
leftmost job whose key is minimal, here computed by a fold that replaces the
candidate only on a strictly smaller key. -/
def selectReadyToInfer : List LoadedJob → Option LoadedJob
  | [] => none
  | j :: js => some (js.foldl (fun best cand => if jobLt cand best then cand else best) j)

/-- One watchdog poll cycle decision: with any active directory present
nothing is dispatched; otherwise the winner among the valid ready jobs is
selected as ready_to_infer. -/
def watchdogCycleChoice (activeCount : Nat) (readyJobs : List LoadedJob) : Option LoadedJob :=
  if activeCount > 0 then none else selectReadyToInfer readyJobs

end OUH.Watchdog

/- ========= Return service delivery worker (ouh_ai_returnservice/main.py) == -/

namespace OUH.ReturnService

open OUH

/-- Python pathlib stem of a basename: the name with its final suffix
removed, where a suffix is the segment from the last dot provided that dot
is neither the first nor the last character. -/
def pyStem (s : PyStr) : PyStr :=
  if 0 < s.reverse.findIdx (fun c => c = '.')
      ∧ s.reverse.findIdx (fun c => c = '.') < s.length - 1
  then s.take (s.length - 1 - s.reverse.findIdx (fun c => c = '.'))
  else s

/-- AiDir.renaming_to_handled_error at the basename level: none when the
guard against renaming twice fires (stem already starts with
handled_error), otherwise the new basename, built by removing every
occurrence of the inferred or error marker from the old name (str.replace
replaces all occurrences, not only a leading one) and prepending the
handled_error marker. -/
def renamingToHandledError (name : PyStr) : Option PyStr :=
  if pyStartswith (pyStem name) (strL (r"handled_error")) then none
  else if pyStartswith (pyStem name) (strL (r"inferred")) then
    some (strL (r"handled_error_") ++ pyReplace name (strL (r"inferred_")) [])
  else
    some (strL (r"handled_error_") ++ pyReplace name (strL (r"error_")) [])

/-- The basename after AiDir.renaming_to_handled_error runs and the
filesystem rename succeeds: unchanged when the guard fires. -/
def renameToHandledErrorName (name : PyStr) : PyStr :=
  (renamingToHandledError name).getD name

/-- Which flows AiSharedDir.scan_directory starts for a subdirectory with
the given basename: three independent lowercased startswith tests select
the inferred flow, the error flow and the retention check. -/
structure ScanActions where
  inferredFlow : Bool
  errorFlow : Bool
  retentionCheck : Bool
deriving DecidableEq, Repr

/-- AiSharedDir.scan_directory dispatch on one subdirectory basename. -/
def scanDispatch (name : PyStr) : ScanActions :=
  { inferredFlow := pyStartswith (pyLower name) (strL (r"inferred_"))
    errorFlow := pyStartswith (pyLower name) (strL (r"error_"))
    retentionCheck := pyStartswith (pyLower name) (strL (r"handled_error")) }

/-- External outcomes for the delivery of one job to one filesystem
destination, as consumed by the loop body of send_struct_to_all_returns
together with copy_file_to_dir and copy_scan_to_dir: whether the patient
subfolder had to be created and whether that succeeded (its failure is the
caught FileNotFoundError that skips to the next destination), whether the
copy of the result structure succeeded, the parsed send-scan flag, whether
listing the scan folder succeeded, and the outcome of each scan-image
copy. -/
structure FsDestOutcome where
  mkdirNeeded : Bool
  mkdirOk : Bool
  copyStructOk : Bool
  sendScanFlag : Bool
  scanListOk : Bool
  scanCopiesOk : List Bool
deriving DecidableEq, Repr

/-- Whether processing one filesystem destination sets the job-scoped
transmission_failed flag: every failing operation inside copy_file_to_dir
and copy_scan_to_dir is caught and recorded, never rethrown. -/
def fsDestFailed (o : FsDestOutcome) : Bool :=
  if o.mkdirNeeded && !o.mkdirOk then true
  else
    !o.copyStructOk
      || (o.sendScanFlag && (!o.scanListOk || o.scanCopiesOk.any (fun b => !b)))

/-- External outcomes for the delivery of one job to one DICOM destination,
as consumed by send_struct and send_scan: association establishment for the
structure transfer (failure to associate, a rejected association and a bad
address are all caught and merged here), the read of the structure file,
the store status of the structure, the parsed send-scan flag, and for the
optional scan pass its own association, folder listing and per-file store
statuses. -/
structure DicomDestOutcome where
  structAssocEstablished : Bool
  structReadOk : Bool
  structStoreOk : Bool
  sendScanFlag : Bool
  scanAssocEstablished : Bool
  scanListOk : Bool
  scanStoresOk : List Bool
deriving DecidableEq, Repr

/-- Whether processing one DICOM destination sets the transmission_failed
flag: every failure inside send_struct and send_scan is caught and
recorded, never rethrown. -/
def dicomDestFailed (o : DicomDestOutcome) : Bool :=
  (!o.structAssocEstablished || !o.structReadOk || !o.structStoreOk)
    || (o.sendScanFlag
        && (!o.scanAssocEstablished || !o.scanListOk
            || o.scanStoresOk.any (fun b => !b)))

/-- The first loop of send_struct_to_all_returns: walks every filesystem
destination in configured order, accumulating the transmission_failed flag
and recording the per-destination failure bit in order of attempt. -/
def runFsDests : List FsDestOutcome → Bool → Bool × List Bool
  | [], flag => (flag, [])
  | o :: os, flag =>
    let f := fsDestFailed o
    let rest := runFsDests os (flag || f)
    (rest.1, f :: rest.2)

/-- The second loop of send_struct_to_all_returns: walks every DICOM
destination in configured order, accumulating the flag and recording the
per-destination failure bit in order of attempt. -/
def runDicomDests : List DicomDestOutcome → Bool → Bool × List Bool
  | [], flag => (flag, [])
  | o :: os, flag =>
    let f := dicomDestFailed o
    let rest := runDicomDests os (flag || f)
    (rest.1, f :: rest.2)

/-- Both destination loops of send_struct_to_all_returns in source order:
filesystem destinations first, then DICOM destinations, returning the final
transmission_failed flag and the full trace of attempted destinations. -/
def runAllDests (fs : List FsDestOutcome) (dic : List DicomDestOutcome)
    (flag : Bool) : Bool × List Bool :=
  let afterFs := runFsDests fs flag
  let afterDic := runDicomDests dic afterFs.1
  (afterDic.1, afterFs.2 ++ afterDic.2)

/-- Error message for a missing RTStruct folder. -/
def msgNoStructFolder : PyStr := strL (r"ERROR 4.01 No RTStruct generated from inference")

/-- Error message for zero result artifacts. -/
def msgNoStruct : PyStr := strL (r"ERROR 4.01 No RTStruct found after inference")

/-- Error message for more than one result artifact. -/
def msgTooManyStructs : PyStr := strL (r"ERROR 4.02 Too many RTStructs found after inference")

/-- Decision taken by AiDir.initiate_sending_struct: either exactly one
.dcm artifact was found and it is sent, or a distinct error message is
recorded and the error flow starts. -/
inductive InitiateOutcome where
  | sent (artifact : PyStr)
  | errorFlow (message : PyStr)
deriving DecidableEq, Repr

/-- The .dcm entries of the dcmoutput folder, in listing order. -/
def structList (entries : List PyStr) : List PyStr :=
  entries.filter (fun f => pyEndswith f (strL (r".dcm")))

/-- AiDir.initiate_sending_struct on the existence of the dcmoutput folder
and its entries: a missing folder, zero artifacts and more than one
artifact each record their own error message and divert to handle_error;
exactly one artifact proceeds to transmission. -/
def initiateSendingStruct (structFolderExists : Bool) (entries : List PyStr) :
    InitiateOutcome :=
  if structFolderExists then
    match structList entries with
    | [f] => InitiateOutcome.sent f
    | [] => InitiateOutcome.errorFlow msgNoStruct
    | _ => InitiateOutcome.errorFlow msgTooManyStructs
  else InitiateOutcome.errorFlow msgNoStructFolder

/-- Terminal resolution of one inferred job directory in a delivery poll
cycle: deleted after complete success, or left renamed with its recorded
error message (none when the quarantine came from a delivery failure, for
which the source sets no error_message) and the dcmoutput entries it still
contains. -/
inductive InferredOutcome where
  | deleted
  | quarantined (message : Option PyStr) (finalName : PyStr) (entries : List PyStr)
deriving DecidableEq, Repr

/-- The whole inferred flow for one job directory, from
initiate_sending_struct through send_struct_to_all_returns (entered with
transmission_failed still False) to delete_sent_folder or
renaming_to_handled_error; the error flow of handle_error always ends in
renaming_to_handled_error whatever the scan folder or the error-struct
build did, so only the recorded message depends on the branch taken. -/
def processInferredJob (name : PyStr) (structFolderExists : Bool)
    (entries : List PyStr) (fs : List FsDestOutcome)
    (dic : List DicomDestOutcome) : InferredOutcome :=
  match initiateSendingStruct structFolderExists entries with
  | InitiateOutcome.sent _ =>
    if (runAllDests fs dic false).1 then
      InferredOutcome.quarantined none (renameToHandledErrorName name) entries
    else InferredOutcome.deleted
  | InitiateOutcome.errorFlow msg =>
    InferredOutcome.quarantined (some msg) (renameToHandledErrorName name) entries

/-- A filesystem destination path as the worker builds it: the configured
return directory joined with the patient-identifier folder name. -/
structure DestPath where
  parent : PyStr
  name : PyStr
deriving DecidableEq, Repr

/-- The str of the destination path, parent and basename joined by the
separator of the deployment platform. -/
def destPathStr (p : DestPath) : PyStr := p.parent ++ '\\' :: p.name

/-- AiDir.censor_pt_id: keeps the path text up to its length minus half the
length of the final component and pads the rest with stars. -/
def censorPtId (p : DestPath) : PyStr :=
  let full := destPathStr p
  let keep := full.length - p.name.length / 2
  full.take keep ++ List.replicate (full.length - keep) '*'

/-- Masking rule as worded by the claim, for comparison: the trailing half
of the whole path text replaced by stars. -/
def maskTrailingHalfSpec (s : PyStr) : PyStr :=
  s.take (s.length - s.length / 2) ++ List.replicate (s.length / 2) '*'

/-- Protocol-level events of the DICOM transfer of one job to one
destination, in order: association negotiations, store operations and
association releases. -/
inductive DicomEvent where
  | associate
  | cstore
  | release
deriving DecidableEq, Repr

/-- Events of AiDir.send_struct: one association negotiation; on an
established association the structure is read (a failed read releases at
once) and stored, and the association is released whatever the store
status; a rejected or failed negotiation produces no release call. -/
def sendStructEvents (o : DicomDestOutcome) : List DicomEvent :=
  if o.structAssocEstablished then
    if o.structReadOk then
      [DicomEvent.associate, DicomEvent.cstore, DicomEvent.release]
    else [DicomEvent.associate, DicomEvent.release]
  else [DicomEvent.associate]

/-- Events of AiDir.send_scan: its own association negotiation; on an
established association the scan folder is listed (a failed listing
releases at once), every .dcm file is stored over the association, and the
association is released. -/
def sendScanEvents (o : DicomDestOutcome) : List DicomEvent :=
  if o.scanAssocEstablished then
    if o.scanListOk then
      [DicomEvent.associate]
        ++ o.scanStoresOk.map (fun _ => DicomEvent.cstore)
        ++ [DicomEvent.release]
    else [DicomEvent.associate, DicomEvent.release]
  else [DicomEvent.associate]

/-- Events produced for one DICOM destination by the loop body of
send_struct_to_all_returns: send_struct always runs, and send_scan runs
afterwards when the destination's send-scan flag is set. -/
def dicomDestEvents (o : DicomDestOutcome) : List DicomEvent :=
  sendStructEvents o ++ (if o.sendScanFlag then sendScanEvents o else [])

/-- Number of association negotiations in an event list. -/
def associationCount (es : List DicomEvent) : Nat :=
  es.countP (fun e => e = DicomEvent.associate)

end OUH.ReturnService

/- ===== Process supervisor (identical main loops of both daemons) ========== -/

namespace OUH.Supervisor

/-- Restart bookkeeping step of the supervisor loop when the worker is found
dead at time now: first the restart timestamps older than the rolling
window are pruned. -/
def pruneRestarts (now window : Int) (rs : List Int) : List Int :=
  rs.filter (fun r => now - r < window)

/-- What the supervisor does after pruning: give up permanently, or wait a
backoff and restart with the new timestamp recorded. -/
inductive SupStep where
  | shutdown
  | restartAfter (backoff : Nat) (restarts : List Int)
deriving DecidableEq, Repr

/-- One supervisor liveness check on a dead worker: prune, compare the
remaining count against max_restarts, and otherwise record the restart and
compute the backoff of two to the power of the new list length, capped at
sixty seconds. -/
def supervisorCheck (maxRestarts : Nat) (window now : Int) (rs : List Int) :
    SupStep :=
  let pruned := pruneRestarts now window rs
  if maxRestarts ≤ pruned.length then SupStep.shutdown
  else
    SupStep.restartAfter (min (2 ^ (pruned.length + 1)) 60) (pruned ++ [now])

/-- The supervisor loop over a sequence of times at which the worker is
found dead, starting from the given recorded restarts: true when the
permanent-shutdown path is taken at some check. -/
def runChecks (maxRestarts : Nat) (window : Int) : List Int → List Int → Bool
  | [], _ => false
  | t :: ts, rs =>
    match supervisorCheck maxRestarts window t rs with
    | SupStep.shutdown => true
    | SupStep.restartAfter _ rs' => runChecks maxRestarts window ts rs'

end OUH.Supervisor

/- ========================== Theorems ===================================== -/

namespace OUH

/-- Two incomparable character sequences cannot both be prefixes of the same
text. -/
theorem pyStartswith_excl {s p q : PyStr} (hpq : ¬ p <+: q) (hqp : ¬ q <+: p)
    (hp : pyStartswith s p = true) : pyStartswith s q = false := by
  by_contra hq
  rw [Bool.not_eq_false] at hq
  rcases List.prefix_or_prefix_of_prefix
      (List.isPrefixOf_iff_prefix.mp hp) (List.isPrefixOf_iff_prefix.mp hq) with h | h
  · exact hpq h
  · exact hqp h

/-- Lowercasing preserves the prefix relation. -/
theorem pyStartswith_pyLower {s p : PyStr} (h : pyStartswith s p = true) :
    pyStartswith (pyLower s) (pyLower p) = true :=
  List.isPrefixOf_iff_prefix.mpr ((List.isPrefixOf_iff_prefix.mp h).map Char.toLower)

/-- A prefix of a prefix is a prefix. -/
theorem pyStartswith_trans {s p q : PyStr} (hp : pyStartswith s p = true)
    (hq : pyStartswith p q = true) : pyStartswith s q = true :=
  List.isPrefixOf_iff_prefix.mpr
    ((List.isPrefixOf_iff_prefix.mp hq).trans (List.isPrefixOf_iff_prefix.mp hp))

/-- Every appended extension starts with the base text. -/
theorem pyStartswith_append (p x : PyStr) : pyStartswith (p ++ x) p = true :=
  List.isPrefixOf_iff_prefix.mpr (List.prefix_append p x)

end OUH

namespace OUH.Watchdog

open OUH

/-- A name that starts with the ready marker cannot start with the active
marker. -/
theorem ready_not_active {n : PyStr}
    (h : pyStartswith (pyLower n) (strL (r"ready_")) = true) :
    pyStartswith (pyLower n) (strL (r"active_")) = false :=
  pyStartswith_excl (by decide) (by decide) h

end OUH.Watchdog

/-- Claim C5: for every subdirectory of the shared scan directory, the job
state derived by the scheduler classifier is a pure function of the
directory-name prefix and the existence of the error-marker file,
independent of any other file contents: an existing error marker forces the
error state regardless of prefix; otherwise the prefixes ready, active,
error, receiving, handled and inferred (matched case-insensitively) yield
their respective states and every other name yields unknown. -/
theorem OUH.Watchdog.claim5_classification_pure :
    (∀ d : ScanDir, aiDirState d = classificationSpec d.name (errorFileExists d))
    ∧ ∀ d d' : ScanDir, d.name = d'.name → errorFileExists d = errorFileExists d' →
        aiDirState d = aiDirState d' := by
  have hmain : ∀ d : ScanDir, aiDirState d = classificationSpec d.name (errorFileExists d) := by
    intro d
    unfold aiDirState classificationSpec
    by_cases he : errorFileExists d = true
    · simp [he]
    · rw [Bool.not_eq_true] at he
      by_cases hr : pyStartswith (pyLower d.name) (strL (r"ready_")) = true
      · simp [he, hr, ready_not_active hr]
      · rw [Bool.not_eq_true] at hr
        simp [he, hr]
  refine ⟨hmain, fun d d' hn hm => ?_⟩
  rw [hmain d, hmain d', hn, hm]

/-- Witness for claim C5: two directories with the same name and marker
state but different modification times classify identically. -/
theorem OUH.Watchdog.claim5_witness :
    aiDirState ⟨strL (r"ready_U"), [], 0⟩ = aiDirState ⟨strL (r"ready_U"), [], 99⟩ :=
  claim5_classification_pure.2 _ _ rfl rfl

/-- Claim C2 (code bug): loading a ready job whose nicelevel entry is absent
or holds a quoted non-integer assigns the default priority 10 and the job
stays dispatchable, but a nicelevel line without the expected quoting makes
AiDir.load raise an uncaught IndexError, which ends the watchdog worker
polling loop instead of being handled per job. -/
theorem OUH.Watchdog.claim2_nicelevel_default_and_crash :
    aiDirLoadNicelevel [strL (r"ModelName:") ++ ['"'] ++ strL (r"M") ++ ['"']]
      = LoadResult.ok 10
    ∧ aiDirLoadNicelevel [strL (r"NiceLevel:") ++ ['"'] ++ strL (r"NOTVALID") ++ ['"']]
      = LoadResult.ok 10
    ∧ aiDirLoadNicelevel [strL (r"NiceLevel:") ++ ['"'] ++ strL (r"3") ++ ['"']]
      = LoadResult.ok 3
    ∧ aiDirLoadNicelevel [strL (r"nicelevel: 5")] = LoadResult.raised
    ∧ workerFate (aiDirLoadNicelevel [strL (r"nicelevel: 5")]) = WorkerFate.loopTerminated := by
  decide

namespace OUH

/-- Python string comparison is irreflexive. -/
theorem pyStrLt_irrefl : ∀ s : PyStr, pyStrLt s s = false := by
  intro s
  induction s with
  | nil => rfl
  | cons c cs ih => simp [pyStrLt, ih]

/-- Python string comparison is transitive. -/
theorem pyStrLt_trans : ∀ a b c : PyStr,
    pyStrLt a b = true → pyStrLt b c = true → pyStrLt a c = true := by
  intro a
  induction a with
  | nil =>
    intro b c h1 h2
    cases b with
    | nil => simp [pyStrLt] at h1
    | cons y ys =>
      cases c with
      | nil => simp [pyStrLt] at h2
      | cons z zs => rfl
  | cons x xs ih =>
    intro b c h1 h2
    cases b with
    | nil => simp [pyStrLt] at h1
    | cons y ys =>
      cases c with
      | nil => simp [pyStrLt] at h2
      | cons z zs =>
        simp only [pyStrLt] at h1 h2 ⊢
        rcases lt_trichotomy x y with hxy | hxy | hxy
        · rcases lt_trichotomy y z with hyz | hyz | hyz
          · simp [lt_trans hxy hyz]
          · subst hyz
            simp [hxy]
          · rw [if_pos hxy] at h1
            rw [if_neg (lt_asymm hyz), if_neg (ne_of_gt hyz)] at h2
            exact absurd h2 (by simp)
        · subst hxy
          rw [if_neg (lt_irrefl x), if_pos rfl] at h1
          rcases lt_trichotomy x z with hxz | hxz | hxz
          · simp [hxz]
          · subst hxz
            rw [if_neg (lt_irrefl x), if_pos rfl] at h2 ⊢
            exact ih ys zs h1 h2
          · rw [if_neg (lt_asymm hxz), if_neg (ne_of_gt hxz)] at h2
            exact absurd h2 (by simp)
        · rw [if_neg (lt_asymm hxy), if_neg (ne_of_gt hxy)] at h1
          exact absurd h1 (by simp)

/-- Python string comparison is total: a failed comparison means equality or
the reverse comparison. -/
theorem pyStrLt_connex : ∀ a b : PyStr,
    pyStrLt a b = false → a = b ∨ pyStrLt b a = true := by
  intro a
  induction a with
  | nil =>
    intro b h
    cases b with
    | nil => exact Or.inl rfl
    | cons y ys => simp [pyStrLt] at h
  | cons x xs ih =>
    intro b h
    cases b with
    | nil => exact Or.inr rfl
    | cons y ys =>
      simp only [pyStrLt] at h ⊢
      rcases lt_trichotomy x y with hxy | hxy | hxy
      · rw [if_pos hxy] at h
        exact absurd h (by simp)
      · subst hxy
        rw [if_neg (lt_irrefl x), if_pos rfl] at h
        rw [if_neg (lt_irrefl x), if_pos rfl]
        rcases ih ys h with h' | h'
        · exact Or.inl (by rw [h'])
        · exact Or.inr h'
      · exact Or.inr (by rw [if_pos hxy])

end OUH

namespace OUH.Watchdog

open OUH

/-- The sort-key comparison is irreflexive. -/
theorem keyLt_irrefl (k : Int × PyStr) : keyLt k k = false := by
  simp [keyLt, pyStrLt_irrefl]


/-- Characterization of a successful sort-key comparison. -/
theorem keyLt_iff (a b : Int × PyStr) :
    keyLt a b = true ↔ a.1 < b.1 ∨ (a.1 = b.1 ∧ pyStrLt a.2 b.2 = true) := by
  unfold keyLt
  split_ifs with h1 h2 <;> simp_all

/-- The sort-key comparison is transitive. -/
theorem keyLt_trans {a b c : Int × PyStr}
    (h1 : keyLt a b = true) (h2 : keyLt b c = true) : keyLt a c = true := by
  rw [keyLt_iff] at h1 h2 ⊢
  rcases h1 with h1 | ⟨he1, hs1⟩
  · rcases h2 with h2 | ⟨he2, _⟩
    · exact Or.inl (lt_trans h1 h2)
    · exact Or.inl (he2 ▸ h1)
  · rcases h2 with h2 | ⟨he2, hs2⟩
    · exact Or.inl (he1 ▸ h2)
    · exact Or.inr ⟨he1.trans he2, pyStrLt_trans _ _ _ hs1 hs2⟩

/-- Failed key comparison against a middle key, followed by a successful
comparison from the same source, composes to a successful comparison from
the middle key. -/
theorem keyLt_false_true {a b c : Int × PyStr}
    (h1 : keyLt a b = false) (h2 : keyLt a c = true) : keyLt b c = true := by
  have h1' : ¬ (a.1 < b.1 ∨ (a.1 = b.1 ∧ pyStrLt a.2 b.2 = true)) := by
    rw [← keyLt_iff, h1]
    simp
  push_neg at h1'
  obtain ⟨hnl, hne⟩ := h1'
  rw [keyLt_iff] at h2 ⊢
  rcases h2 with h2 | ⟨he2, hs2⟩
  · exact Or.inl (lt_of_le_of_lt hnl h2)
  · rcases lt_or_eq_of_le hnl with hlt | heq
    · exact Or.inl (he2 ▸ hlt)
    · have hsf : pyStrLt a.2 b.2 = false := by
        rcases Bool.eq_false_or_eq_true (pyStrLt a.2 b.2) with h | h
        · exact absurd h (hne heq.symm)
        · exact h
      rcases pyStrLt_connex a.2 b.2 hsf with hss | hss
      · exact Or.inr ⟨heq.trans he2, hss ▸ hs2⟩
      · exact Or.inr ⟨heq.trans he2, pyStrLt_trans _ _ _ hss hs2⟩

/-- Irreflexivity, restated for jobs. -/
theorem jobLt_irrefl (j : LoadedJob) : jobLt j j = false := keyLt_irrefl _

/-- Transitivity, restated for jobs. -/
theorem jobLt_trans {a b c : LoadedJob}
    (h1 : jobLt a b = true) (h2 : jobLt b c = true) : jobLt a c = true :=
  keyLt_trans h1 h2

/-- Composition with a failed comparison, restated for jobs. -/
theorem jobLt_false_true {a b c : LoadedJob}
    (h1 : jobLt a b = false) (h2 : jobLt a c = true) : jobLt b c = true :=
  keyLt_false_true h1 h2

/-- The job the fold of load_ready returns is one of the folded jobs. -/
theorem foldl_pick_mem : ∀ (l : List LoadedJob) (b : LoadedJob),
    l.foldl (fun best cand => if jobLt cand best then cand else best) b ∈ b :: l := by
  intro l
  induction l with
  | nil => intro b; simp
  | cons c cs ih =>
    intro b
    simp only [List.foldl_cons]
    by_cases hc : jobLt c b = true
    · rw [if_pos hc]
      exact List.mem_cons_of_mem b (ih c)
    · rw [if_neg hc]
      rcases List.mem_cons.mp (ih b) with h | h
      · exact List.mem_cons.mpr (Or.inl h)
      · exact List.mem_cons.mpr (Or.inr (List.mem_cons.mpr (Or.inr h)))

/-- No folded job compares strictly below the job the fold returns. -/
theorem foldl_pick_min : ∀ (l : List LoadedJob) (b : LoadedJob), ∀ k ∈ b :: l,
    jobLt k (l.foldl (fun best cand => if jobLt cand best then cand else best) b) = false := by
  intro l
  induction l with
  | nil =>
    intro b k hk
    rcases List.mem_singleton.mp hk with rfl
    simp only [List.foldl_nil]
    exact jobLt_irrefl _
  | cons c cs ih =>
    intro b k hk
    simp only [List.foldl_cons]
    by_cases hc : jobLt c b = true
    · rw [if_pos hc]
      rcases List.mem_cons.mp hk with h | hk'
      · rw [h]
        by_contra hlt
        rw [Bool.not_eq_false] at hlt
        have hcr := ih c c (List.mem_cons_self c cs)
        have hct := jobLt_trans hc hlt
        rw [hcr] at hct
        exact absurd hct (by decide)
      · rcases List.mem_cons.mp hk' with h | hk''
        · rw [h]
          exact ih c c (List.mem_cons_self c cs)
        · exact ih c k (List.mem_cons.mpr (Or.inr hk''))
    · rw [if_neg hc]
      rw [Bool.not_eq_true] at hc
      rcases List.mem_cons.mp hk with h | hk'
      · rw [h]
        exact ih b b (List.mem_cons_self b cs)
      · rcases List.mem_cons.mp hk' with h | hk''
        · rw [h]
          by_contra hlt
          rw [Bool.not_eq_false] at hlt
          have hbr := ih b b (List.mem_cons_self b cs)
          have hbt := jobLt_false_true hc hlt
          rw [hbr] at hbt
          exact absurd hbt (by decide)
        · exact ih b k (List.mem_cons.mpr (Or.inr hk''))

end OUH.Watchdog

/-- Claim C1 counterexample: three valid ready jobs with priorities 10, 1, 1
and modification times t0, t2, t1 where t1 is two days before t2 (t1 noon
Wednesday 2026-01-07, t2 noon Friday 2026-01-09).  The claim says the
priority-1 job with modification time t1 is activated; the scheduler instead
selects the t2 job, because last_modified is the ctime text and the Friday
string compares below the Wednesday string. -/
theorem OUH.Watchdog.claim1_counterexample :
    watchdogCycleChoice 0
      [⟨strL (r"ready_A"), 10, 1767744000⟩,
       ⟨strL (r"ready_B"), 1, 1767960000⟩,
       ⟨strL (r"ready_C"), 1, 1767787200⟩]
      = some ⟨strL (r"ready_B"), 1, 1767960000⟩
    ∧ (1767787200 : Nat) < 1767960000
    ∧ some (⟨strL (r"ready_B"), 1, 1767960000⟩ : LoadedJob)
        ≠ some (⟨strL (r"ready_C"), 1, 1767787200⟩ : LoadedJob) := by
  refine ⟨by decide, by norm_num, by decide⟩

/-- Claim C1 as amended: in a poll cycle with no active job, the scheduler
selects a valid ready job none of whose competitors has a strictly smaller
(nicelevel, last_modified) key, where last_modified is the ctime-formatted
text of the modification time compared as a string; this agrees with
chronological order only when the formatted strings compare consistently,
as in the spec example instantiated with same-day timestamps, where the
priority-1 job with the earlier time t1 wins. -/
theorem OUH.Watchdog.claim1_selection_minimal :
    (∀ (jobs : List LoadedJob) (j : LoadedJob),
        watchdogCycleChoice 0 jobs = some j →
        j ∈ jobs ∧ ∀ k ∈ jobs, jobLt k j = false)
    ∧ watchdogCycleChoice 0
        [⟨strL (r"ready_A"), 10, 1767744000⟩,
         ⟨strL (r"ready_B"), 1, 1767794400⟩,
         ⟨strL (r"ready_C"), 1, 1767787200⟩]
        = some ⟨strL (r"ready_C"), 1, 1767787200⟩ := by
  constructor
  · intro jobs j hj
    unfold watchdogCycleChoice at hj
    simp only [gt_iff_lt, lt_irrefl, if_false] at hj
    cases jobs with
    | nil => simp [selectReadyToInfer] at hj
    | cons b l =>
      unfold selectReadyToInfer at hj
      rw [Option.some.injEq] at hj
      subst hj
      exact ⟨foldl_pick_mem l b, foldl_pick_min l b⟩
  · decide

/-- Witness for claim C1: applying the amended selection theorem to a
two-job cycle shows the chosen job is a member and minimal. -/
theorem OUH.Watchdog.claim1_witness :
    (⟨strL (r"ready_B"), 1, 0⟩ : LoadedJob)
        ∈ [(⟨strL (r"ready_A"), 2, 0⟩ : LoadedJob), ⟨strL (r"ready_B"), 1, 0⟩]
    ∧ ∀ k ∈ [(⟨strL (r"ready_A"), 2, 0⟩ : LoadedJob), ⟨strL (r"ready_B"), 1, 0⟩],
        jobLt k ⟨strL (r"ready_B"), 1, 0⟩ = false :=
  claim1_selection_minimal.1 _ _ (by decide)

namespace OUH.Supervisor

/-- With checks spaced strictly beyond the window, a single recorded restart
is always pruned at the next check, so the count never reaches the limit. -/
theorem runChecks_spaced_single (window : Int) :
    ∀ (ts : List Int) (r : Int), List.Chain (fun a b => a + window < b) r ts →
      runChecks 5 window ts [r] = false := by
  intro ts
  induction ts with
  | nil => intro r _; rfl
  | cons t ts ih =>
    intro r hch
    rw [List.chain_cons] at hch
    obtain ⟨hrt, hch⟩ := hch
    have hcond : decide (t - r < window) = false := by
      rw [decide_eq_false_iff_not]
      omega
    have hpr : pruneRestarts t window [r] = [] := by
      simp only [pruneRestarts, List.filter, hcond]
    show runChecks 5 window (t :: ts) [r] = false
    simp only [runChecks, supervisorCheck, hpr, List.length_nil, List.nil_append]
    norm_num
    exact ih t hch

/-- Claim C9: with max_restarts five, worker deaths spaced strictly beyond
the rolling window never reach the permanent-shutdown path; five restarts
inside one window make the next in-window liveness check shut down
permanently; and the wait before a restart is the minimum of sixty and two
to the power of the number of restarts recorded inside the window. -/
theorem OUH.Supervisor.claim9_restart_policy :
    ∀ window : Int, 0 < window →
      ((∀ ts : List Int, List.Chain' (fun a b => a + window < b) ts →
          runChecks 5 window ts [] = false)
      ∧ (∀ t1 t2 t3 t4 t5 t6 : Int, t1 ≤ t2 → t2 ≤ t3 → t3 ≤ t4 → t4 ≤ t5 →
          t5 ≤ t6 → t6 - t1 < window →
          runChecks 5 window [t1, t2, t3, t4, t5, t6] [] = true)
      ∧ (∀ (now : Int) (rs : List Int),
          (pruneRestarts now window rs).length < 5 →
          supervisorCheck 5 window now rs
            = SupStep.restartAfter
                (min (2 ^ ((pruneRestarts now window rs).length + 1)) 60)
                (pruneRestarts now window rs ++ [now])
          ∧ (pruneRestarts now window (pruneRestarts now window rs ++ [now])).length
              = (pruneRestarts now window rs).length + 1)) := by
  intro window hw
  refine ⟨?_, ?_, ?_⟩
  · intro ts hch
    cases ts with
    | nil => rfl
    | cons t ts =>
      have hch' : List.Chain (fun a b => a + window < b) t ts := hch
      show runChecks 5 window (t :: ts) [] = false
      have hpr : pruneRestarts t window [] = [] := rfl
      simp only [runChecks, supervisorCheck, hpr, List.length_nil, List.nil_append]
      norm_num
      exact runChecks_spaced_single window ts t hch'
  · intro t1 t2 t3 t4 t5 t6 h12 h23 h34 h45 h56 hwin
    have keep : ∀ (now : Int) (l : List Int), (∀ r ∈ l, now - r < window) →
        pruneRestarts now window l = l := by
      intro now l hl
      apply List.filter_eq_self.mpr
      intro a ha
      rw [decide_eq_true_iff]
      exact hl a ha
    have p1 : pruneRestarts t1 window [] = [] := rfl
    have p2 : pruneRestarts t2 window [t1] = [t1] := by
      apply keep
      intro r hr
      rcases List.mem_singleton.mp hr with rfl
      omega
    have p3 : pruneRestarts t3 window [t1, t2] = [t1, t2] := by
      apply keep
      intro r hr
      rcases hr with _ | ⟨_, hr⟩
      · omega
      · rcases List.mem_singleton.mp hr with rfl
        omega
    have p4 : pruneRestarts t4 window [t1, t2, t3] = [t1, t2, t3] := by
      apply keep
      intro r hr
      rcases hr with _ | ⟨_, hr⟩
      · omega
      rcases hr with _ | ⟨_, hr⟩
      · omega
      rcases List.mem_singleton.mp hr with rfl
      omega
    have p5 : pruneRestarts t5 window [t1, t2, t3, t4] = [t1, t2, t3, t4] := by
      apply keep
      intro r hr
      rcases hr with _ | ⟨_, hr⟩
      · omega
      rcases hr with _ | ⟨_, hr⟩
      · omega
      rcases hr with _ | ⟨_, hr⟩
      · omega
      rcases List.mem_singleton.mp hr with rfl
      omega
    have p6 : pruneRestarts t6 window [t1, t2, t3, t4, t5] = [t1, t2, t3, t4, t5] := by
      apply keep
      intro r hr
      rcases hr with _ | ⟨_, hr⟩
      · omega
      rcases hr with _ | ⟨_, hr⟩
      · omega
      rcases hr with _ | ⟨_, hr⟩
      · omega
      rcases hr with _ | ⟨_, hr⟩
      · omega
      rcases List.mem_singleton.mp hr with rfl
      omega
    simp [runChecks, supervisorCheck, p1, p2, p3, p4, p5, p6]
  · intro now rs hlt
    have hni : ¬ (5 ≤ (pruneRestarts now window rs).length) := by omega
    constructor
    · unfold supervisorCheck
      rw [if_neg hni]
    · have : pruneRestarts now window (pruneRestarts now window rs ++ [now])
          = pruneRestarts now window rs ++ [now] := by
        apply List.filter_eq_self.mpr
        intro a ha
        rw [decide_eq_true_iff]
        rcases List.mem_append.mp ha with h | h
        · have := List.of_mem_filter h
          rw [decide_eq_true_iff] at this
          exact this
        · rcases List.mem_singleton.mp h with rfl
          omega
      rw [this, List.length_append, List.length_singleton]

end OUH.Supervisor

/-- Witness for claim C9 at window 100: six spaced deaths never shut down,
six bunched deaths do, and a single in-window restart yields a four second
backoff with both restarts recorded inside the window. -/
theorem OUH.Supervisor.claim9_witness :
    runChecks 5 100 [0, 101, 202, 303, 404, 505] [] = false
    ∧ runChecks 5 100 [0, 1, 2, 3, 4, 5] [] = true
    ∧ supervisorCheck 5 100 50 [0]
        = SupStep.restartAfter (min (2 ^ ((pruneRestarts 50 100 [0]).length + 1)) 60)
            (pruneRestarts 50 100 [0] ++ [50])
    ∧ (pruneRestarts 50 100 (pruneRestarts 50 100 [0] ++ [50])).length
        = (pruneRestarts 50 100 [0]).length + 1 := by
  have h := OUH.Supervisor.claim9_restart_policy 100 (by norm_num)
  exact ⟨h.1 _ (by norm_num [List.chain'_cons, List.chain'_singleton]),
    h.2.1 0 1 2 3 4 5 (by norm_num) (by norm_num) (by norm_num) (by norm_num)
      (by norm_num) (by norm_num),
    (h.2.2 50 [0] (by decide)).1, (h.2.2 50 [0] (by decide)).2⟩

namespace OUH.ReturnService

open OUH

/-- The stem of a basename is a prefix of it. -/
theorem pyStem_le_self (s : PyStr) : pyStem s <+: s := by
  unfold pyStem
  split_ifs with h
  · exact List.take_prefix _ s
  · exact List.prefix_refl s

/-- A dot-free front of a basename survives stem computation: the suffix cut
by pathlib starts at the last dot, which lies beyond any dot-free prefix. -/
theorem pyStem_keeps_front {p s : PyStr} (hp : pyStartswith s p = true)
    (hdot : '.' ∉ p) : pyStartswith (pyStem s) p = true := by
  unfold pyStem
  split_ifs with h
  · obtain ⟨hj0, hjlt⟩ := h
    have hjlen : s.reverse.findIdx (fun c => c = '.') < s.reverse.length := by
      rw [List.length_reverse]
      omega
    have hplen : p.length ≤ s.length - 1 - s.reverse.findIdx (fun c => c = '.') := by
      by_contra hcon
      push_neg at hcon
      have hdot1 : s.reverse.get ⟨s.reverse.findIdx (fun c => c = '.'), hjlen⟩ = '.' := by
        have hfi := @List.findIdx_get _ (fun c => decide (c = '.')) s.reverse hjlen
        simpa using hfi
      have his : s.length - 1 - s.reverse.findIdx (fun c => c = '.') < s.length := by omega
      have hdot2 : s.get ⟨s.length - 1 - s.reverse.findIdx (fun c => c = '.'), his⟩ = '.' := by
        rw [List.get_reverse' s ⟨s.reverse.findIdx (fun c => c = '.'), hjlen⟩ his] at hdot1
        exact hdot1
      have hpq := List.prefix_iff_eq_take.mp (List.isPrefixOf_iff_prefix.mp hp)
      have hlt : s.length - 1 - s.reverse.findIdx (fun c => c = '.')
          < (List.take p.length s).length := by
        rw [List.length_take]
        omega
      have hg : (List.take p.length s).get
            ⟨s.length - 1 - s.reverse.findIdx (fun c => c = '.'), hlt⟩
          = s.get ⟨s.length - 1 - s.reverse.findIdx (fun c => c = '.'), his⟩ :=
        List.get_take' s
      have hmem : (List.take p.length s).get
            ⟨s.length - 1 - s.reverse.findIdx (fun c => c = '.'), hlt⟩
          ∈ List.take p.length s :=
        List.get_mem _ _ _
      rw [hg, hdot2] at hmem
      rw [hpq] at hdot
      exact hdot hmem
    exact List.isPrefixOf_iff_prefix.mpr
      (List.prefix_take_iff.mpr ⟨List.isPrefixOf_iff_prefix.mp hp, hplen⟩)
  · exact hp

/-- A front of the stem is a front of the whole basename. -/
theorem pyStartswith_of_stem {s q : PyStr}
    (h : pyStartswith (pyStem s) q = true) : pyStartswith s q = true :=
  List.isPrefixOf_iff_prefix.mpr
    ((List.isPrefixOf_iff_prefix.mp h).trans (pyStem_le_self s))

end OUH.ReturnService

namespace OUH

/-- When the pattern occurs nowhere in the text, replacement leaves the text
unchanged, for any fuel. -/
theorem pyReplaceGo_no_occurrence (pat repl : PyStr) :
    ∀ (fuel : Nat) (s : PyStr), pyContains s pat = false →
      pyReplaceGo pat repl fuel s = s := by
  intro fuel
  induction fuel with
  | zero => intro s _; rfl
  | succ n ih =>
    intro s hs
    cases s with
    | nil => rfl
    | cons c cs =>
      have hs' : (pat.isPrefixOf (c :: cs) || pyContains cs pat) = false := hs
      rw [Bool.or_eq_false_iff] at hs'
      obtain ⟨hp, hc⟩ := hs'
      show pyReplaceGo pat repl (n + 1) (c :: cs) = c :: cs
      simp only [pyReplaceGo, hp, Bool.false_and, Bool.false_eq_true, if_false]
      rw [ih cs hc]

/-- Replacing a pattern at the very front of a text in which it occurs
nowhere else substitutes exactly once. -/
theorem pyReplace_strip_front (p : Char) (ps x repl : PyStr)
    (hx : pyContains x (p :: ps) = false) :
    pyReplace ((p :: ps) ++ x) (p :: ps) repl = repl ++ x := by
  unfold pyReplace
  rw [List.cons_append, List.length_cons]
  show pyReplaceGo (p :: ps) repl ((ps ++ x).length + 1) (p :: (ps ++ x)) = repl ++ x
  have hpre : (p :: ps).isPrefixOf (p :: (ps ++ x)) = true := by
    rw [← List.cons_append]
    exact List.isPrefixOf_iff_prefix.mpr (List.prefix_append _ _)
  simp only [pyReplaceGo, hpre, List.isEmpty_cons, Bool.not_false, Bool.and_true, if_true]
  rw [← List.cons_append, List.drop_left' (by rfl)]
  rw [pyReplaceGo_no_occurrence _ _ _ _ hx]

end OUH

namespace OUH.ReturnService

open OUH

/-- A basename produced by the rename always passes the guard the next
time, since the guard marker is a dot-free front of every produced name. -/
theorem rename_result_guarded (y : PyStr) :
    renamingToHandledError (strL (r"handled_error_") ++ y) = none := by
  have hpre : pyStartswith (strL (r"handled_error_") ++ y) (strL (r"handled_error")) = true := by
    have hsplit : strL (r"handled_error_") ++ y = strL (r"handled_error") ++ ('_' :: y) := by
      rw [show strL (r"handled_error_") = strL (r"handled_error") ++ ['_'] from rfl]
      rw [List.append_assoc]
      rfl
    rw [hsplit]
    exact pyStartswith_append _ _
  have hstem : pyStartswith (pyStem (strL (r"handled_error_") ++ y)) (strL (r"handled_error")) = true :=
    pyStem_keeps_front hpre (by decide)
  unfold renamingToHandledError
  rw [if_pos hstem]

/-- A successful rename yields a basename on which a second rename is
refused. -/
theorem rename_result_noop {name s : PyStr}
    (h : renamingToHandledError name = some s) :
    renamingToHandledError s = none := by
  unfold renamingToHandledError at h
  split_ifs at h
  all_goals rw [Option.some.injEq] at h
  all_goals subst h
  all_goals exact rename_result_guarded _

end OUH.ReturnService

/-- Claim C10 counterexample: the rename operation applied once to the
basename handled_eerror_rror_x, which does not start with handled_error,
produces handled_error_handled_error_x, a name carrying the stacked prefix
the claim says no directory ever acquires; removal of every occurrence of
the error marker manufactures the handled_error front. -/
theorem OUH.ReturnService.claim10_counterexample :
    pyStartswith (strL (r"handled_eerror_rror_x")) (strL (r"handled_error")) = false
    ∧ renamingToHandledError (strL (r"handled_eerror_rror_x"))
        = some (strL (r"handled_error_handled_error_x"))
    ∧ pyStartswith (strL (r"handled_error_handled_error_x"))
        (strL (r"handled_error_handled_error_")) = true := by
  decide

/-- Claim C10 as amended: the guard makes the rename idempotent - a
basename starting with handled_error is never renamed, applying the rename
twice equals applying it once, and an inferred_ basename with no internal
occurrence of the inferred marker has its prefix replaced rather than
stacked - but, because str.replace removes every occurrence of the marker,
a crafted name that does not start with handled_error can still acquire a
stacked prefix in one application. -/
theorem OUH.ReturnService.claim10_rename_idempotent :
    (∀ name : PyStr, pyStartswith name (strL (r"handled_error")) = true →
        renamingToHandledError name = none)
    ∧ (∀ name : PyStr,
        renameToHandledErrorName (renameToHandledErrorName name)
          = renameToHandledErrorName name)
    ∧ (∀ x : PyStr, pyContains x (strL (r"inferred_")) = false →
        renamingToHandledError (strL (r"inferred_") ++ x)
          = some (strL (r"handled_error_") ++ x)) := by
  refine ⟨?_, ?_, ?_⟩
  · intro name h
    have hstem : pyStartswith (pyStem name) (strL (r"handled_error")) = true :=
      pyStem_keeps_front h (by decide)
    unfold renamingToHandledError
    rw [if_pos hstem]
  · intro name
    unfold renameToHandledErrorName
    cases hr : renamingToHandledError name with
    | none => simp [hr]
    | some s => simp [hr, rename_result_noop hr]
  · intro x hx
    have hfull : pyStartswith (strL (r"inferred_") ++ x) (strL (r"inferred_")) = true :=
      pyStartswith_append _ _
    have hstem2 : pyStartswith (pyStem (strL (r"inferred_") ++ x)) (strL (r"inferred")) = true := by
      apply pyStem_keeps_front _ (by decide)
      exact pyStartswith_trans hfull (by decide)
    have hstem1 : pyStartswith (pyStem (strL (r"inferred_") ++ x)) (strL (r"handled_error")) = false := by
      rcases Bool.eq_false_or_eq_true
          (pyStartswith (pyStem (strL (r"inferred_") ++ x)) (strL (r"handled_error"))) with h | h
      · have hfull2 := pyStartswith_of_stem h
        have := @pyStartswith_excl (strL (r"inferred_") ++ x) (strL (r"inferred_"))
            (strL (r"handled_error")) (by decide) (by decide) hfull
        rw [this] at hfull2
        exact absurd hfull2 (by decide)
      · exact h
    unfold renamingToHandledError
    rw [if_neg (by simp [hstem1]), if_pos hstem2]
    rw [show strL (r"inferred_") = 'i' :: strL (r"nferred_") from rfl] at hx ⊢
    rw [pyReplace_strip_front _ _ _ _ hx]
    simp

/-- Witness for claim C10: a quarantined basename is left alone, and a
clean inferred basename has its prefix replaced. -/
theorem OUH.ReturnService.claim10_witness :
    renamingToHandledError (strL (r"handled_error_UID7")) = none
    ∧ renameToHandledErrorName (renameToHandledErrorName (strL (r"inferred_UID7")))
        = renameToHandledErrorName (strL (r"inferred_UID7"))
    ∧ renamingToHandledError (strL (r"inferred_") ++ strL (r"UID7"))
        = some (strL (r"handled_error_") ++ strL (r"UID7")) :=
  ⟨claim10_rename_idempotent.1 _ (by decide),
   claim10_rename_idempotent.2.1 _,
   claim10_rename_idempotent.2.2 _ (by decide)⟩

namespace OUH.ReturnService

open OUH

/-- The filesystem loop accumulates the failure flag across every listed
destination and reports one result per destination. -/
theorem runFsDests_spec (os : List FsDestOutcome) (flag : Bool) :
    runFsDests os flag = (flag || os.any fsDestFailed, os.map fsDestFailed) := by
  induction os generalizing flag with
  | nil => simp [runFsDests]
  | cons o os ih => simp [runFsDests, ih, Bool.or_assoc]

/-- The DICOM loop accumulates the failure flag across every listed
destination and reports one result per destination. -/
theorem runDicomDests_spec (os : List DicomDestOutcome) (flag : Bool) :
    runDicomDests os flag = (flag || os.any dicomDestFailed, os.map dicomDestFailed) := by
  induction os generalizing flag with
  | nil => simp [runDicomDests]
  | cons o os ih => simp [runDicomDests, ih, Bool.or_assoc]

end OUH.ReturnService

/-- Claim C6: a copy or transfer failure at one destination never aborts
the fan-out: the trace of attempted destinations always covers every
configured filesystem and DICOM destination in order, whatever the
outcomes, and the job-scoped transmission_failed flag is set exactly when
at least one destination failed. -/
theorem OUH.ReturnService.claim6_exhaustive_fanout :
    ∀ (fs : List FsDestOutcome) (dic : List DicomDestOutcome),
      (runAllDests fs dic false).2 = fs.map fsDestFailed ++ dic.map dicomDestFailed
      ∧ (runAllDests fs dic false).2.length = fs.length + dic.length
      ∧ ((runAllDests fs dic false).1 = true ↔
          (∃ o ∈ fs, fsDestFailed o = true) ∨ (∃ o ∈ dic, dicomDestFailed o = true)) := by
  intro fs dic
  refine ⟨?_, ?_, ?_⟩
  · simp [runAllDests, runFsDests_spec, runDicomDests_spec]
  · simp [runAllDests, runFsDests_spec, runDicomDests_spec]
  · simp [runAllDests, runFsDests_spec, runDicomDests_spec, List.any_eq_true]

namespace OUH.ReturnService

open OUH

/-- Renaming an inferred_ directory yields a handled_error_ name: the guard
cannot fire on an inferred_ name and both rename branches prepend the
handled_error marker. -/
theorem rename_inferred_front {name : PyStr}
    (h : pyStartswith name (strL (r"inferred_")) = true) :
    pyStartswith (renameToHandledErrorName name) (strL (r"handled_error_")) = true := by
  have hg : pyStartswith (pyStem name) (strL (r"handled_error")) = false := by
    rcases Bool.eq_false_or_eq_true
        (pyStartswith (pyStem name) (strL (r"handled_error"))) with hb | hb
    · have hfull := pyStartswith_of_stem hb
      have hexcl := @pyStartswith_excl name (strL (r"inferred_"))
          (strL (r"handled_error")) (by decide) (by decide) h
      rw [hexcl] at hfull
      exact absurd hfull (by decide)
    · exact hb
  have hi : pyStartswith (pyStem name) (strL (r"inferred")) = true :=
    pyStem_keeps_front (pyStartswith_trans h (by decide)) (by decide)
  unfold renameToHandledErrorName renamingToHandledError
  rw [if_neg (by simp [hg]), if_pos hi]
  simp only [Option.getD_some]
  exact pyStartswith_append _ _

/-- A handled_error_ basename is dispatched only to the retention check by
the delivery scanner: it is neither re-sent nor re-handled. -/
theorem dispatch_of_handled {s : PyStr}
    (h : pyStartswith s (strL (r"handled_error_")) = true) :
    scanDispatch s = { inferredFlow := false, errorFlow := false, retentionCheck := true } := by
  have hlow : pyStartswith (pyLower s) (strL (r"handled_error_")) = true := by
    have hmap := pyStartswith_pyLower h
    rwa [show pyLower (strL (r"handled_error_")) = strL (r"handled_error_") from by decide] at hmap
  have hh : pyStartswith (pyLower s) (strL (r"handled_error")) = true :=
    pyStartswith_trans hlow (by decide)
  unfold scanDispatch
  rw [@pyStartswith_excl (pyLower s) (strL (r"handled_error")) (strL (r"inferred_"))
      (by decide) (by decide) hh]
  rw [@pyStartswith_excl (pyLower s) (strL (r"handled_error")) (strL (r"error_"))
      (by decide) (by decide) hh]
  rw [hh]

end OUH.ReturnService

/-- Claim C3: for an inferred_ job with exactly one result artifact, success
at every configured destination deletes the job directory, while failure at
any destination renames it with the handled_error_ prefix instead of
deleting it, with the artifact still among its output entries. -/
theorem OUH.ReturnService.claim3_delivery_outcome :
    ∀ (name : PyStr) (entries : List PyStr) (a : PyStr)
      (fs : List FsDestOutcome) (dic : List DicomDestOutcome),
      pyStartswith name (strL (r"inferred_")) = true →
      structList entries = [a] →
      (((∀ o ∈ fs, fsDestFailed o = false) ∧ (∀ o ∈ dic, dicomDestFailed o = false)) →
          processInferredJob name true entries fs dic = InferredOutcome.deleted)
      ∧ (((∃ o ∈ fs, fsDestFailed o = true) ∨ (∃ o ∈ dic, dicomDestFailed o = true)) →
          processInferredJob name true entries fs dic
            = InferredOutcome.quarantined none (renameToHandledErrorName name) entries
          ∧ pyStartswith (renameToHandledErrorName name) (strL (r"handled_error_")) = true
          ∧ a ∈ entries) := by
  intro name entries a fs dic hname hone
  have hinit : initiateSendingStruct true entries = InitiateOutcome.sent a := by
    unfold initiateSendingStruct
    rw [if_pos rfl, hone]
  constructor
  · intro ⟨hfs, hdic⟩
    have hflag : (runAllDests fs dic false).1 = false := by
      rcases Bool.eq_false_or_eq_true (runAllDests fs dic false).1 with hb | hb
      · rcases (claim6_exhaustive_fanout fs dic).2.2.mp hb with ⟨o, ho, hf⟩ | ⟨o, ho, hf⟩
        · rw [hfs o ho] at hf
          exact absurd hf (by decide)
        · rw [hdic o ho] at hf
          exact absurd hf (by decide)
      · exact hb
    unfold processInferredJob
    rw [hinit, hflag]
    rfl
  · intro hfail
    have hflag : (runAllDests fs dic false).1 = true :=
      (claim6_exhaustive_fanout fs dic).2.2.mpr hfail
    refine ⟨?_, rename_inferred_front hname, ?_⟩
    · unfold processInferredJob
      rw [hinit, hflag]
      rfl
    · have : a ∈ structList entries := by
        rw [hone]
        exact List.mem_singleton.mpr rfl
      exact (List.mem_filter.mp this).1

/-- Witness for claim C3: a one-artifact job with no failing destination is
deleted, and the same job with one failing DICOM destination is quarantined
with its artifact retained. -/
theorem OUH.ReturnService.claim3_witness :
    processInferredJob (strL (r"inferred_U")) true [strL (r"rtstruct.dcm")] [] []
      = InferredOutcome.deleted
    ∧ (processInferredJob (strL (r"inferred_U")) true [strL (r"rtstruct.dcm")] []
        [{ structAssocEstablished := false, structReadOk := true, structStoreOk := true,
           sendScanFlag := false, scanAssocEstablished := false, scanListOk := true,
           scanStoresOk := [] }]
        = InferredOutcome.quarantined none
            (renameToHandledErrorName (strL (r"inferred_U"))) [strL (r"rtstruct.dcm")]
      ∧ pyStartswith (renameToHandledErrorName (strL (r"inferred_U")))
          (strL (r"handled_error_")) = true
      ∧ strL (r"rtstruct.dcm") ∈ [strL (r"rtstruct.dcm")]) := by
  constructor
  · exact (claim3_delivery_outcome (strL (r"inferred_U")) [strL (r"rtstruct.dcm")]
      (strL (r"rtstruct.dcm")) [] [] (by decide) (by decide)).1
      ⟨by simp, by simp⟩
  · exact (claim3_delivery_outcome (strL (r"inferred_U")) [strL (r"rtstruct.dcm")]
      (strL (r"rtstruct.dcm")) []
      [{ structAssocEstablished := false, structReadOk := true, structStoreOk := true,
         sendScanFlag := false, scanAssocEstablished := false, scanListOk := true,
         scanStoresOk := [] }] (by decide) (by decide)).2
      (Or.inr ⟨_, List.mem_singleton.mpr rfl, by decide⟩)

/-- Claim C4: an inferred_ job with zero result artifacts, or more than
one, transmits nothing: each such case records its own distinct error
message, enters the error flow, and the job ends renamed with the
handled_error_ prefix, from which the scanner only ever garbage-collects
it, never re-sending or re-handling it. -/
theorem OUH.ReturnService.claim4_artifact_cardinality :
    ∀ (name : PyStr) (entries : List PyStr)
      (fs : List FsDestOutcome) (dic : List DicomDestOutcome),
      pyStartswith name (strL (r"inferred_")) = true →
      (structList entries = [] →
          processInferredJob name true entries fs dic
            = InferredOutcome.quarantined (some msgNoStruct)
                (renameToHandledErrorName name) entries)
      ∧ (2 ≤ (structList entries).length →
          processInferredJob name true entries fs dic
            = InferredOutcome.quarantined (some msgTooManyStructs)
                (renameToHandledErrorName name) entries)
      ∧ processInferredJob name false entries fs dic
          = InferredOutcome.quarantined (some msgNoStructFolder)
              (renameToHandledErrorName name) entries
      ∧ msgNoStruct ≠ msgTooManyStructs
      ∧ pyStartswith (renameToHandledErrorName name) (strL (r"handled_error_")) = true
      ∧ scanDispatch (renameToHandledErrorName name)
          = { inferredFlow := false, errorFlow := false, retentionCheck := true } := by
  intro name entries fs dic hname
  refine ⟨?_, ?_, ?_, by decide, rename_inferred_front hname,
    dispatch_of_handled (rename_inferred_front hname)⟩
  · intro hz
    unfold processInferredJob initiateSendingStruct
    rw [if_pos rfl, hz]
  · intro hm
    rcases hsl : structList entries with _ | ⟨a, _ | ⟨b, tl⟩⟩
    · rw [hsl] at hm
      simp at hm
    · rw [hsl] at hm
      simp at hm
    · unfold processInferredJob initiateSendingStruct
      rw [if_pos rfl, hsl]
  · unfold processInferredJob initiateSendingStruct
    rw [if_neg (by simp)]

/-- Witness for claim C4: a job folder with no artifact is quarantined with
the zero-artifact message and its final name is only ever considered for
retention. -/
theorem OUH.ReturnService.claim4_witness :
    processInferredJob (strL (r"inferred_U")) true [] [] []
      = InferredOutcome.quarantined (some msgNoStruct)
          (renameToHandledErrorName (strL (r"inferred_U"))) []
    ∧ scanDispatch (renameToHandledErrorName (strL (r"inferred_U")))
        = { inferredFlow := false, errorFlow := false, retentionCheck := true } := by
  have h := claim4_artifact_cardinality (strL (r"inferred_U")) [] [] [] (by decide)
  exact ⟨h.1 (by decide), h.2.2.2.2.2⟩

/-- Claim C7 counterexample: for a destination whose send-source-images
flag is set, the worker negotiates two associations for the job - one in
send_struct for the result structure, a second in send_scan for the source
images - not the single association per destination per job the claim
states. -/
theorem OUH.ReturnService.claim7_counterexample :
    associationCount (dicomDestEvents
      { structAssocEstablished := true, structReadOk := true, structStoreOk := true,
        sendScanFlag := true, scanAssocEstablished := true, scanListOk := true,
        scanStoresOk := [true, true] }) = 2
    ∧ (2 : Nat) ≠ 1 := by
  decide

/-- Claim C7 as amended: per destination and job the worker negotiates one
association per batch - one for the result structure and, when the
send-source-images flag is set, a separate second one for the scan - and on
the successful path each association is released immediately after the
files of its batch. -/
theorem OUH.ReturnService.claim7_association_per_batch :
    ∀ o : DicomDestOutcome,
      associationCount (dicomDestEvents o) = (if o.sendScanFlag then 2 else 1)
      ∧ (o.structAssocEstablished = true → o.structReadOk = true →
          o.scanAssocEstablished = true → o.scanListOk = true →
          dicomDestEvents o
            = [DicomEvent.associate, DicomEvent.cstore, DicomEvent.release]
              ++ (if o.sendScanFlag then
                    [DicomEvent.associate]
                      ++ o.scanStoresOk.map (fun _ => DicomEvent.cstore)
                      ++ [DicomEvent.release]
                  else [])) := by
  intro o
  constructor
  · unfold dicomDestEvents sendStructEvents sendScanEvents associationCount
    rcases Bool.eq_false_or_eq_true o.sendScanFlag with hf | hf <;>
      rcases Bool.eq_false_or_eq_true o.structAssocEstablished with h1 | h1 <;>
      rcases Bool.eq_false_or_eq_true o.structReadOk with h2 | h2 <;>
      rcases Bool.eq_false_or_eq_true o.scanAssocEstablished with h3 | h3 <;>
      rcases Bool.eq_false_or_eq_true o.scanListOk with h4 | h4 <;>
      simp [hf, h1, h2, h3, h4, List.countP_append, List.countP_cons, List.countP_map,
        Function.comp]
  · intro h1 h2 h3 h4
    unfold dicomDestEvents sendStructEvents sendScanEvents
    rcases Bool.eq_false_or_eq_true o.sendScanFlag with hf | hf <;>
      simp [hf, h1, h2, h3, h4]

/-- Witness for claim C7: the association count and the per-batch event
layout at a fully successful destination with the scan flag set. -/
theorem OUH.ReturnService.claim7_witness :
    associationCount (dicomDestEvents
      (⟨true, true, true, true, true, true, [true]⟩ : DicomDestOutcome)) = 2
    ∧ dicomDestEvents (⟨true, true, true, true, true, true, [true]⟩ : DicomDestOutcome)
        = [DicomEvent.associate, DicomEvent.cstore, DicomEvent.release,
           DicomEvent.associate, DicomEvent.cstore, DicomEvent.release] := by
  have h := claim7_association_per_batch
    (⟨true, true, true, true, true, true, [true]⟩ : DicomDestOutcome)
  constructor
  · rw [h.1]
    decide
  · rw [h.2 rfl rfl rfl rfl]
    decide

/-- Claim C8 counterexample: for the destination path with parent abc and
patient folder de, the log text keeps the separator and the first half of
the patient folder visible and masks one character, whereas masking the
trailing half of the whole path would mask three; the logged text is not
the claim's mask of the path. -/
theorem OUH.ReturnService.claim8_counterexample :
    censorPtId { parent := strL (r"abc"), name := strL (r"de") } = strL (r"abc\d*")
    ∧ maskTrailingHalfSpec (destPathStr { parent := strL (r"abc"), name := strL (r"de") })
        = strL (r"abc***")
    ∧ censorPtId { parent := strL (r"abc"), name := strL (r"de") }
        ≠ maskTrailingHalfSpec (destPathStr { parent := strL (r"abc"), name := strL (r"de") }) := by
  decide

/-- Claim C8 as amended: the censored log text for a filesystem destination
path has exactly the length of the real path text, keeps it unchanged up to
the last floor of half the patient-folder basename length characters, and
replaces exactly those trailing characters by stars - the mask covers the
trailing half of the basename, not the trailing half of the whole path. -/
theorem OUH.ReturnService.claim8_censor_masks_half_basename :
    ∀ p : DestPath,
      (censorPtId p).length = (destPathStr p).length
      ∧ (censorPtId p).take ((destPathStr p).length - p.name.length / 2)
          = (destPathStr p).take ((destPathStr p).length - p.name.length / 2)
      ∧ (censorPtId p).drop ((destPathStr p).length - p.name.length / 2)
          = List.replicate (p.name.length / 2) '*' := by
  intro p
  have hlen : p.name.length / 2 ≤ (destPathStr p).length := by
    unfold destPathStr
    rw [List.length_append, List.length_cons]
    omega
  have htake : (List.take ((destPathStr p).length - p.name.length / 2) (destPathStr p)).length
      = (destPathStr p).length - p.name.length / 2 := by
    rw [List.length_take]
    omega
  refine ⟨?_, ?_, ?_⟩
  · unfold censorPtId
    rw [List.length_append, List.length_replicate, htake]
    omega
  · unfold censorPtId
    rw [List.take_left' htake]
  · unfold censorPtId
    rw [List.drop_left' htake]
    have : (destPathStr p).length - ((destPathStr p).length - p.name.length / 2)
        = p.name.length / 2 := by omega
    rw [this]
